import Mathlib

/-!
Verification development for the orbital-sandbox physics engine
(`src/js/Physics.js`, `src/js/Body.js`).

Numbers are modelled as exact rationals (`ℚ`); the JavaScript transcendental
primitives `Math.sqrt`, `Math.cbrt`, `Math.cos`, `Math.sin`, the constant
`Math.PI` and the random stream `Math.random()` are abstract parameters of
the embedding, bundled in `MathEnv` (the random stream is indexed by a
cursor counting draws, threaded through the computation in source order).

The source compares `Math.sqrt s < t` in its collision guards; since real
square root is monotone, on a nonnegative radicand this comparison is
equivalent to `0 < t ∧ s < t * t`, which is what the executable guard
`sqrtLt` computes.  The lemma `sqrtLt_eq_real_sqrt_lt` below proves this
equivalence against `Real.sqrt`, so the guard is an exact translation.
-/

namespace Orbital

/-- Bodies from `Body.js`, restricted to the fields `Physics.js` reads or
writes (position, velocity, acceleration, mass, radius, trail, merged flag
and color; `id`, `type` and `escaped` are never touched by the engine).
The nested `position`/`velocity`/`acceleration` objects are flattened. -/
structure CelestialBody where
  x : ℚ
  y : ℚ
  vx : ℚ
  vy : ℚ
  ax : ℚ
  ay : ℚ
  mass : ℚ
  radius : ℚ
  trail : List (ℚ × ℚ)
  merged : Bool
  color : ℕ
deriving DecidableEq

/-- The fixed attractor from `Body.js` (`Star`): position, mass, radius.
It has no velocity or acceleration fields in the source either, so it can
receive no reciprocal acceleration by construction. -/
structure Star where
  x : ℚ
  y : ℚ
  mass : ℚ
  radius : ℚ
deriving DecidableEq

/-- Fragment spawn descriptor pushed by `_explode` (the constant
`type: 'planet'` field is omitted). -/
structure Fragment where
  x : ℚ
  y : ℚ
  vx : ℚ
  vy : ℚ
  mass : ℚ
  radius : ℚ
  color : ℕ
deriving DecidableEq

/-- Abstract interpretations of the JavaScript math primitives used by
`Physics.js`, plus the `Math.random()` stream (`rand k` is the value of the
`k`-th draw). -/
structure MathEnv where
  sqrt : ℚ → ℚ
  cbrt : ℚ → ℚ
  cos : ℚ → ℚ
  sin : ℚ → ℚ
  pi : ℚ
  rand : ℕ → ℚ

/-- Simulation state threaded through a `step` call: the body collection
(count `n` is invariant — the engine only flags bodies, never removes
them), the optional attractor, the fragment list accumulated for the
caller, and the cursor into the random stream. -/
structure SimState (n : ℕ) where
  bodies : Fin n → CelestialBody
  star : Option Star
  frags : List Fragment
  cursor : ℕ

def G : ℚ := 2
def SOFTENING : ℚ := 5
def SOFTENING_SQ : ℚ := SOFTENING * SOFTENING
def SUBSTEPS : ℕ := 4
def TRAIL_MAX_LENGTH : ℕ := 300

/-- JavaScript `Math.round`: round half toward positive infinity,
`Math.round x = ⌊x + 1/2⌋` for every finite argument. -/
def jsRound (q : ℚ) : ℤ := ⌊q + 1 / 2⌋

/-- Executable form of the source comparison `Math.sqrt s < t` for a
nonnegative radicand `s`: equivalent to `0 < t ∧ s < t * t`
(see `sqrtLt_eq_real_sqrt_lt`). -/
def sqrtLt (s t : ℚ) : Bool := decide (0 < t ∧ s < t * t)

/-- `Physics.js` line 50-51: push the current position, evict the oldest
entry when the cap is exceeded. -/
def pushPoint (t : List (ℚ × ℚ)) (p : ℚ × ℚ) : List (ℚ × ℚ) :=
  let t' := t ++ [p]
  if TRAIL_MAX_LENGTH < t'.length then t'.tail else t'

def pushTrail (b : CelestialBody) : CelestialBody :=
  { b with trail := pushPoint b.trail (b.x, b.y) }

/-- First half-kick and drift (`Physics.js` lines 29-37): the drift uses
the already half-kicked velocity. -/
def halfKickDrift (dt : ℚ) (b : CelestialBody) : CelestialBody :=
  let vx' := b.vx + 1 / 2 * b.ax * dt
  let vy' := b.vy + 1 / 2 * b.ay * dt
  { b with vx := vx', vy := vy', x := b.x + vx' * dt, y := b.y + vy' * dt }

/-- Second half-kick (`Physics.js` lines 42-46). -/
def halfKick (dt : ℚ) (b : CelestialBody) : CelestialBody :=
  { b with vx := b.vx + 1 / 2 * b.ax * dt, vy := b.vy + 1 / 2 * b.ay * dt }

/-- Acceleration contribution of the star on one body
(`Physics.js` lines 70-78). -/
def starKick (e : MathEnv) (s : Star) (b : CelestialBody) : CelestialBody :=
  let dx := s.x - b.x
  let dy := s.y - b.y
  let distSq := dx * dx + dy * dy + SOFTENING_SQ
  let dist := e.sqrt distSq
  let forceMag := G * s.mass / distSq
  { b with ax := b.ax + forceMag * dx / dist, ay := b.ay + forceMag * dy / dist }

/-- One iteration of the pairwise force loop (`Physics.js` lines 84-96) for
the ordered pair `p` with `p.1 < p.2`: accumulate the softened inverse
square force into both bodies' accelerations. -/
def pairAccelStep (e : MathEnv) (st : Fin n → CelestialBody)
    (p : Fin n × Fin n) : Fin n → CelestialBody :=
  let a := st p.1
  let b := st p.2
  let dx := b.x - a.x
  let dy := b.y - a.y
  let distSq := dx * dx + dy * dy + SOFTENING_SQ
  let dist := e.sqrt distSq
  let forceMag := G / distSq
  let axu := forceMag * dx / dist
  let ayu := forceMag * dy / dist
  Function.update
    (Function.update st p.1
      { a with ax := a.ax + b.mass * axu, ay := a.ay + b.mass * ayu })
    p.2
    { b with ax := b.ax - a.mass * axu, ay := b.ay - a.mass * ayu }

/-- The index pairs `(i, j)` with `i < j` visited by the triangular double
loop, in source order. -/
def accelPairs (n : ℕ) : List (Fin n × Fin n) :=
  (List.finRange n).flatMap fun i =>
    ((List.finRange n).filter fun j => i < j).map fun j => (i, j)

/-- `_computeAccelerations` (`Physics.js` lines 62-99): reset every
acceleration, add the star term when an attractor is present, then run the
triangular pairwise loop. -/
def computeAccelerations (e : MathEnv) (star? : Option Star)
    (b : Fin n → CelestialBody) : Fin n → CelestialBody :=
  let b0 : Fin n → CelestialBody := fun k => { b k with ax := 0, ay := 0 }
  let b1 : Fin n → CelestialBody :=
    match star? with
    | none => b0
    | some s => fun k => starKick e s (b0 k)
  (accelPairs n).foldl (pairAccelStep e) b1

/-- Merge of an overlapping pair under the merge policy
(`Physics.js` lines 131-139): body `a` becomes the survivor with
mass-weighted position/velocity, volume-additive radius and summed mass
(the source assigns `a.mass` last, so every weighted average reads the old
masses); `bdy` is flagged merged. -/
def mergeBodies (e : MathEnv) (a bdy : CelestialBody) :
    CelestialBody × CelestialBody :=
  let totalMass := a.mass + bdy.mass
  ({ a with
      x := (a.x * a.mass + bdy.x * bdy.mass) / totalMass
      y := (a.y * a.mass + bdy.y * bdy.mass) / totalMass
      vx := (a.vx * a.mass + bdy.vx * bdy.mass) / totalMass
      vy := (a.vy * a.mass + bdy.vy * bdy.mass) / totalMass
      radius := e.cbrt (a.radius ^ 3 + bdy.radius ^ 3)
      mass := totalMass },
   { bdy with merged := true })

/-- Fragment spawn angle (`Physics.js` line 167): evenly spaced around the
circle, jittered by the random draw at stream position `c + 2*i`. -/
def fragAngle (e : MathEnv) (c N i : ℕ) : ℚ :=
  ((i : ℚ) / (N : ℚ)) * 2 * e.pi
    + (e.rand (c + 2 * i) - 0.5) * (e.pi / (N : ℚ))

/-- Fragment kick magnitude (`Physics.js` line 168): `kickSpeed` jittered
multiplicatively by the random draw at stream position `c + 2*i + 1`. -/
def fragKick (e : MathEnv) (c : ℕ) (kickSpeed : ℚ) (i : ℕ) : ℚ :=
  kickSpeed * (0.7 + e.rand (c + 2 * i + 1) * 0.6)

/-- Kick speed of `_explode` (`Physics.js` lines 154-157): relative impact
speed scaled by `0.45`, floored at `8`. -/
def kickSpeedVal (e : MathEnv) (a b : CelestialBody) : ℚ :=
  let relVx := a.vx - b.vx
  let relVy := a.vy - b.vy
  max 8 (e.sqrt (relVx * relVx + relVy * relVy) * 0.45)

/-- Fragment count of `_explode` (`Physics.js` line 160):
`clamp(round((r_a + r_b) / 3), 3, 8)`. -/
def fragCount (a b : CelestialBody) : ℕ :=
  (max 3 (min 8 (jsRound ((a.radius + b.radius) / 3)))).toNat

/-- Fragment radius of `_explode` (`Physics.js` line 161):
volume-equivalent share, floored at `2`. -/
def fragRadiusVal (e : MathEnv) (a b : CelestialBody) : ℚ :=
  max 2 (e.cbrt ((a.radius ^ 3 + b.radius ^ 3) / (fragCount a b : ℚ)))

/-- Fragment mass of `_explode` (`Physics.js` line 162): equal integer
share of the combined mass, floored at `1`. -/
def fragMassVal (a b : CelestialBody) : ℚ :=
  ((max 1 (jsRound ((a.mass + b.mass) / (fragCount a b : ℚ))) : ℤ) : ℚ)

/-- The `i`-th fragment pushed by `_explode` (`Physics.js` lines 166-178):
spawned at an angular offset around the center of mass, with the
center-of-mass velocity plus an outward kick. -/
def mkFragment (e : MathEnv) (a b : CelestialBody) (c i : ℕ) : Fragment :=
  let totalMass := a.mass + b.mass
  let cx := (a.x * a.mass + b.x * b.mass) / totalMass
  let cy := (a.y * a.mass + b.y * b.mass) / totalMass
  let cvx := (a.vx * a.mass + b.vx * b.mass) / totalMass
  let cvy := (a.vy * a.mass + b.vy * b.mass) / totalMass
  let spawnR := fragRadiusVal e a b * 2 + 3
  let angle := fragAngle e c (fragCount a b) i
  let kick := fragKick e c (kickSpeedVal e a b) i
  { x := cx + e.cos angle * spawnR
    y := cy + e.sin angle * spawnR
    vx := cvx + e.cos angle * kick
    vy := cvy + e.sin angle * kick
    mass := fragMassVal a b
    radius := fragRadiusVal e a b
    color := if b.mass ≤ a.mass then a.color else b.color }

/-- `_explode` (`Physics.js` lines 146-180): fragment list for the pair
`(a, b)` together with the advanced random-stream cursor.  Per fragment the
source draws the angle jitter first and the kick jitter second, hence the
draws at `c + 2*i` and `c + 2*i + 1` inside `fragAngle`/`fragKick`. -/
def explode (e : MathEnv) (a b : CelestialBody) (c : ℕ) :
    List Fragment × ℕ :=
  ((List.range (fragCount a b)).map (mkFragment e a b c),
   c + 2 * fragCount a b)

/-- Overlap test of the body-body loop (`Physics.js` lines 122-125):
`Math.sqrt(dx*dx + dy*dy) < a.radius + bdy.radius`. -/
def bodyOverlap (a bdy : CelestialBody) : Bool :=
  sqrtLt ((bdy.x - a.x) * (bdy.x - a.x) + (bdy.y - a.y) * (bdy.y - a.y))
    (a.radius + bdy.radius)

/-- Overlap test of the body-star loop (`Physics.js` lines 106-109):
`Math.sqrt(dx*dx + dy*dy) < star.radius + b.radius * 0.5`. -/
def starOverlap (s : Star) (b : CelestialBody) : Bool :=
  sqrtLt ((b.x - s.x) * (b.x - s.x) + (b.y - s.y) * (b.y - s.y))
    (s.radius + b.radius * 0.5)

/-- Body-vs-star absorption (`Physics.js` lines 104-113): overlapping
bodies are flagged merged, independent of the collision policy. -/
def starAbsorb (s : Star) (b : CelestialBody) : CelestialBody :=
  if starOverlap s b then { b with merged := true } else b

def starAbsorbPhase (st : SimState n) : SimState n :=
  match st.star with
  | none => st
  | some s => { st with bodies := fun k => starAbsorb s (st.bodies k) }

/-- Body of the inner `j` loop (`Physics.js` lines 118-142) for the pair
`(i, j)`, `i < j`: skip when `bodies[j]` is already merged (the outer
body's flag is NOT re-checked here — the source checks it only once, at
entry of the inner loop), then resolve an overlap by explosion (when the
caller passed a fragments array) or merge. -/
def bodyPairCollide (e : MathEnv) (expl : Bool) (i j : Fin n)
    (st : SimState n) : SimState n :=
  if (st.bodies j).merged then st
  else
    let a := st.bodies i
    let bdy := st.bodies j
    if bodyOverlap a bdy then
      if expl then
        let fc := explode e a bdy st.cursor
        { st with
            bodies := Function.update
              (Function.update st.bodies i { a with merged := true }) j
              { bdy with merged := true }
            frags := st.frags ++ fc.1
            cursor := fc.2 }
      else
        let ab := mergeBodies e a bdy
        { st with
            bodies := Function.update
              (Function.update st.bodies i ab.1) j ab.2 }
    else st

def innerCollide (e : MathEnv) (expl : Bool) (i : Fin n)
    (st : SimState n) : SimState n :=
  ((List.finRange n).filter fun j => i < j).foldl
    (fun s j => bodyPairCollide e expl i j s) st

/-- The body-body double loop (`Physics.js` lines 116-143): the outer
body's merged flag is checked once per `i`, before its inner loop runs. -/
def bodyCollide (e : MathEnv) (expl : Bool) (st : SimState n) : SimState n :=
  (List.finRange n).foldl
    (fun s i => if (s.bodies i).merged then s else innerCollide e expl i s) st

/-- `_handleCollisions` (`Physics.js` lines 102-144): star absorption
first, then the body-body loop. -/
def handleCollisions (e : MathEnv) (expl : Bool) (st : SimState n) :
    SimState n :=
  bodyCollide e expl (starAbsorbPhase st)

/-- One substep of `step` (`Physics.js` lines 25-56): compute
accelerations, half-kick + drift, recompute accelerations, second
half-kick, record trails, resolve collisions. -/
def substep (e : MathEnv) (expl : Bool) (dt : ℚ) (st : SimState n) :
    SimState n :=
  let b1 := computeAccelerations e st.star st.bodies
  let b2 := fun k => halfKickDrift dt (b1 k)
  let b3 := computeAccelerations e st.star b2
  let b4 := fun k => halfKick dt (b3 k)
  let b5 := fun k => pushTrail (b4 k)
  handleCollisions e expl { st with bodies := b5 }

/-- `step` (`Physics.js` lines 21-59): divide the frame time into
`SUBSTEPS` substeps and iterate; the fragment list starts empty on every
call (the source allocates a fresh array). -/
def step (e : MathEnv) (frameTimeSec : ℚ) (expl : Bool)
    (st : SimState n) : SimState n :=
  (substep e expl (frameTimeSec / (SUBSTEPS : ℚ)))^[SUBSTEPS]
    { st with frags := [] }

/-- `circularOrbitVelocity` (`Physics.js` lines 186-192). -/
def circularOrbitVelocity (e : MathEnv) (x y : ℚ) (starPos : ℚ × ℚ)
    (starMass : ℚ) : ℚ :=
  let dx := x - starPos.1
  let dy := y - starPos.2
  let r := e.sqrt (dx * dx + dy * dy)
  if r < 1 then 0 else e.sqrt (G * starMass / r)

/-- Concrete instantiation of the math primitives used by the closed
evaluations below.  Every primitive is only ever applied, in those
evaluations, at arguments where the chosen value agrees with the real
function it stands for: `sqrt` is only applied at `0` (`id 0 = √0`);
`cos` only at the stand-in angles `0`, `2`, `4` which, with `pi := 3`,
encode `0`, `2π/3`, `4π/3`, where real cosine is `1`, `-1/2`, `-1/2`
(see `cos_agrees_on_used_angles`); `sin` values never influence the
stated conclusions; the stream `rand` draws `1/2` for every angle jitter
(zero jitter) and `1/2, 0, 0, …` for the kick jitters — all inside
`Math.random()`'s range `[0, 1)`. -/
def envC : MathEnv :=
  { sqrt := id
    cbrt := id
    cos := fun q => if q = 0 then 1 else -(1 / 2)
    sin := fun _ => 0
    pi := 3
    rand := fun k => if k % 2 = 0 then 1 / 2 else if k = 1 then 1 / 2 else 0 }

/-- Fresh body as constructed by `Body.js` (empty trail, zero
acceleration, cleared flags). -/
def mkBody (x y vx vy mass radius : ℚ) : CelestialBody :=
  { x := x, y := y, vx := vx, vy := vy, ax := 0, ay := 0,
    mass := mass, radius := radius, trail := [], merged := false, color := 0 }

/-- Three mutually overlapping bodies (pairwise distances 1, 1, 2; all
radius sums 3), no star, used with the explode policy. -/
def st2 : SimState 3 :=
  { bodies :=
      ![mkBody 0 0 0 0 10 1.5, mkBody 1 0 0 0 10 1.5, mkBody 2 0 0 0 10 1.5]
    star := none, frags := [], cursor := 0 }

/-- An overlapping resting pair for the explosion conservation checks. -/
def a4 : CelestialBody := mkBody 0 0 0 0 1 1

def b4 : CelestialBody := mkBody 1 0 0 0 1 1

/-- An overlapping pair of combined mass 1 (masses `1/2` each), radius 1
each, for the fragment mass/radius formulas. -/
def a5 : CelestialBody := mkBody 0 0 0 0 (1 / 2) 1

def b5 : CelestialBody := mkBody 1 0 0 0 (1 / 2) 1

/-- Two overlapping bodies (distance 1 < radius sum 2), no star. -/
def st3 : SimState 2 :=
  { bodies := ![mkBody 0 0 0 0 1 1, mkBody 1 0 2 0 1 1]
    star := none, frags := [], cursor := 0 }

/-- A single isolated body with an empty trail, no star. -/
def st9 : SimState 1 :=
  { bodies := ![mkBody 5 5 0 0 1 1], star := none, frags := [], cursor := 0 }

/-- The default star of `Body.js` at the origin. -/
def starC : Star := { x := 0, y := 0, mass := 1000000, radius := 30 }

/-- A single body at distance 5 from the star (well inside the absorption
band `30 + 0.5 * 2 = 31`). -/
def st8 : SimState 1 :=
  { bodies := ![mkBody 3 4 0 0 1 2], star := some starC, frags := [],
    cursor := 0 }

/-- The acceleration the star exerts on a body (`Physics.js` lines 71-77),
as a vector: magnitude `G·M/(d² + ε²)` along the direction obtained by
dividing the offset by the softened distance `sqrt(d² + ε²)`. -/
def starAccelTerm (e : MathEnv) (s : Star) (b : CelestialBody) : ℚ × ℚ :=
  let dx := s.x - b.x
  let dy := s.y - b.y
  let distSq := dx * dx + dy * dy + SOFTENING_SQ
  let dist := e.sqrt distSq
  let forceMag := G * s.mass / distSq
  (forceMag * dx / dist, forceMag * dy / dist)

/-- The acceleration contribution of body `l` on body `k`
(`Physics.js` lines 86-96): the other body's mass times the softened
inverse-square kernel, directed from `k` toward `l`. -/
def bodyAccelTerm (e : MathEnv) (b : Fin n → CelestialBody)
    (k l : Fin n) : ℚ × ℚ :=
  let dx := (b l).x - (b k).x
  let dy := (b l).y - (b k).y
  let distSq := dx * dx + dy * dy + SOFTENING_SQ
  let dist := e.sqrt distSq
  let forceMag := G / distSq
  ((b l).mass * (forceMag * dx / dist),
   (b l).mass * (forceMag * dy / dist))

/-- Acceleration increment that the pair iteration for `p` adds to the
body at index `k` (zero when `k` is not in the pair). -/
def pairDelta (e : MathEnv) (b : Fin n → CelestialBody)
    (p : Fin n × Fin n) (k : Fin n) : ℚ × ℚ :=
  (if k = p.1 then bodyAccelTerm e b k p.2 else 0)
    + (if k = p.2 then bodyAccelTerm e b k p.1 else 0)

/-- All body fields except the acceleration and the trail agree. -/
abbrev sameKin (b b' : CelestialBody) : Prop :=
  b.x = b'.x ∧ b.y = b'.y ∧ b.vx = b'.vx ∧ b.vy = b'.vy ∧
  b.mass = b'.mass ∧ b.radius = b'.radius ∧ b.merged = b'.merged ∧
  b.color = b'.color

/-- All body fields except the acceleration agree. -/
abbrev sameKinTrail (b b' : CelestialBody) : Prop :=
  sameKin b b' ∧ b.trail = b'.trail

/-- The executable guard `sqrtLt s t` is exactly the source comparison
`Math.sqrt s < t`: real square root of a nonnegative radicand is below `t`
iff `t` is positive and the radicand is below `t * t`. -/
theorem sqrtLt_eq_real_sqrt_lt (s t : ℚ) :
    sqrtLt s t = true ↔ Real.sqrt (s : ℝ) < (t : ℝ) := by
  unfold sqrtLt
  rw [decide_eq_true_iff]
  constructor
  · rintro ⟨ht, hs⟩
    have ht' : (0 : ℝ) < (t : ℝ) := by exact_mod_cast ht
    rw [Real.sqrt_lt' ht']
    have hs' : (s : ℝ) < (t : ℝ) * (t : ℝ) := by exact_mod_cast hs
    nlinarith
  · intro h
    have ht' : (0 : ℝ) < (t : ℝ) := lt_of_le_of_lt (Real.sqrt_nonneg _) h
    rw [Real.sqrt_lt' ht'] at h
    refine ⟨by exact_mod_cast ht', ?_⟩
    have : (s : ℝ) < (t : ℝ) * (t : ℝ) := by nlinarith
    exact_mod_cast this

/-- The stand-in cosine of `envC` agrees with real cosine at every angle
the closed explosion evaluations reach: with the token `pi := 3` standing
for `π` (so a token angle `q` encodes the real angle `q * π / 3`), the
reached token angles `0`, `2`, `4` encode `0`, `2π/3`, `4π/3`. -/
theorem cos_agrees_on_used_angles :
    Real.cos 0 = ((envC.cos 0 : ℚ) : ℝ) ∧
    Real.cos (2 * Real.pi / 3) = ((envC.cos 2 : ℚ) : ℝ) ∧
    Real.cos (4 * Real.pi / 3) = ((envC.cos 4 : ℚ) : ℝ) := by
  refine ⟨by norm_num [envC], ?_, ?_⟩
  · rw [show (2 * Real.pi / 3 : ℝ) = Real.pi - Real.pi / 3 by ring,
      Real.cos_pi_sub, Real.cos_pi_div_three]
    norm_num [envC]
  · rw [show (4 * Real.pi / 3 : ℝ) = Real.pi - -(Real.pi / 3) by ring,
      Real.cos_pi_sub, Real.cos_neg, Real.cos_pi_div_three]
    norm_num [envC]

/-- C1: a merge under the merge policy conserves mass exactly, conserves
momentum exactly, sets the survivor's position and velocity to the
mass-weighted averages, sets the radius to `cbrt(r_a³ + r_b³)`, and flags
the other body merged. -/
theorem C1_merge_conservation (e : MathEnv) (a bdy : CelestialBody)
    (ha : 0 < a.mass) (hb : 0 < bdy.mass) :
    (mergeBodies e a bdy).1.mass = a.mass + bdy.mass ∧
    (mergeBodies e a bdy).1.mass * (mergeBodies e a bdy).1.vx
      = a.mass * a.vx + bdy.mass * bdy.vx ∧
    (mergeBodies e a bdy).1.mass * (mergeBodies e a bdy).1.vy
      = a.mass * a.vy + bdy.mass * bdy.vy ∧
    (mergeBodies e a bdy).1.x
      = (a.x * a.mass + bdy.x * bdy.mass) / (a.mass + bdy.mass) ∧
    (mergeBodies e a bdy).1.y
      = (a.y * a.mass + bdy.y * bdy.mass) / (a.mass + bdy.mass) ∧
    (mergeBodies e a bdy).1.vx
      = (a.vx * a.mass + bdy.vx * bdy.mass) / (a.mass + bdy.mass) ∧
    (mergeBodies e a bdy).1.vy
      = (a.vy * a.mass + bdy.vy * bdy.mass) / (a.mass + bdy.mass) ∧
    (mergeBodies e a bdy).1.radius = e.cbrt (a.radius ^ 3 + bdy.radius ^ 3) ∧
    (mergeBodies e a bdy).2.merged = true := by
  have htot : a.mass + bdy.mass ≠ 0 := by positivity
  refine ⟨rfl, ?_, ?_, rfl, rfl, rfl, rfl, rfl, rfl⟩
  · show (a.mass + bdy.mass)
        * ((a.vx * a.mass + bdy.vx * bdy.mass) / (a.mass + bdy.mass))
      = a.mass * a.vx + bdy.mass * bdy.vx
    rw [mul_comm, div_mul_cancel₀ _ htot]
    ring
  · show (a.mass + bdy.mass)
        * ((a.vy * a.mass + bdy.vy * bdy.mass) / (a.mass + bdy.mass))
      = a.mass * a.vy + bdy.mass * bdy.vy
    rw [mul_comm, div_mul_cancel₀ _ htot]
    ring

/-- Witness for C1 at the concrete pair `a4`, `b4`. -/
theorem C1_merge_conservation_witness :
    (0 < a4.mass ∧ 0 < b4.mass) ∧
    ((mergeBodies envC a4 b4).1.mass = a4.mass + b4.mass ∧
     (mergeBodies envC a4 b4).1.mass * (mergeBodies envC a4 b4).1.vx
       = a4.mass * a4.vx + b4.mass * b4.vx ∧
     (mergeBodies envC a4 b4).1.mass * (mergeBodies envC a4 b4).1.vy
       = a4.mass * a4.vy + b4.mass * b4.vy ∧
     (mergeBodies envC a4 b4).1.x
       = (a4.x * a4.mass + b4.x * b4.mass) / (a4.mass + b4.mass) ∧
     (mergeBodies envC a4 b4).1.y
       = (a4.y * a4.mass + b4.y * b4.mass) / (a4.mass + b4.mass) ∧
     (mergeBodies envC a4 b4).1.vx
       = (a4.vx * a4.mass + b4.vx * b4.mass) / (a4.mass + b4.mass) ∧
     (mergeBodies envC a4 b4).1.vy
       = (a4.vy * a4.mass + b4.vy * b4.mass) / (a4.mass + b4.mass) ∧
     (mergeBodies envC a4 b4).1.radius
       = envC.cbrt (a4.radius ^ 3 + b4.radius ^ 3) ∧
     (mergeBodies envC a4 b4).2.merged = true) :=
  ⟨⟨of_decide_eq_true (by with_unfolding_all rfl),
    of_decide_eq_true (by with_unfolding_all rfl)⟩,
   C1_merge_conservation envC a4 b4
     (of_decide_eq_true (by with_unfolding_all rfl))
     (of_decide_eq_true (by with_unfolding_all rfl))⟩

/-- C2, failing input: three mutually overlapping bodies under the explode
policy.  The outer loop's merged-flag guard is evaluated once per outer
index, before its inner loop, so body 0 — although flagged terminal by its
explosion with body 1 — still participates in the later pair (0, 2) and
explodes a second time: one resolution pass emits 6 fragments (two
3-fragment explosions both consuming body 0's full mass) instead of
skipping the flagged body. -/
theorem C2_double_explosion :
    (handleCollisions envC true st2).frags.length = 6 ∧
    ((handleCollisions envC true st2).bodies 0).merged = true ∧
    ((handleCollisions envC true st2).bodies 2).merged = true ∧
    (explode envC (st2.bodies 0) (st2.bodies 1) 0).1.length = 3 :=
  of_decide_eq_true (by with_unfolding_all rfl)

/-- C3, counterexample: `step` with `frameTimeSec = 0` on two overlapping
bodies changes body 0's velocity (the dt-0 substep still resolves the
collision, overwriting the velocity with the pair's barycentric average)
and changes its trail (one position is recorded per substep even at
`Δt = 0`). -/
theorem C3_counterexample :
    ¬ (((step envC 0 false st3).bodies 0).vx = (st3.bodies 0).vx ∧
       ((step envC 0 false st3).bodies 0).trail = (st3.bodies 0).trail) :=
  of_decide_eq_true (by with_unfolding_all rfl)

/-- C4, counterexample: an explosion of the resting overlapping pair
`(a4, b4)` with an admissible random draw (zero angle jitter, kick
multipliers `1.0, 0.7, 0.7`) gives total fragment momentum `12/5` in `x`,
while the pair's center-of-mass `x`-velocity is `0`: the mass-weighted
average fragment velocity differs from the center-of-mass velocity, so the
conservation claim fails for this draw. -/
theorem C4_counterexample :
    ((explode envC a4 b4 0).1.map fun f => f.mass * f.vx).sum ≠
      ((explode envC a4 b4 0).1.map fun f => f.mass).sum *
        ((a4.vx * a4.mass + b4.vx * b4.mass) / (a4.mass + b4.mass)) :=
  of_decide_eq_true (by with_unfolding_all rfl)

/-- C9, counterexample: a single body with an empty trail has a trail of
length 4 after one `step` call (one entry per substep), not
`min(steps_taken, 300) = 1`. -/
theorem C9_counterexample :
    ((step envC 0 false st9).bodies 0).trail.length ≠ min 1 TRAIL_MAX_LENGTH :=
  of_decide_eq_true (by with_unfolding_all rfl)

theorem mkFragment_mass (e : MathEnv) (a b : CelestialBody) (c i : ℕ) :
    (mkFragment e a b c i).mass = fragMassVal a b := rfl

theorem mkFragment_radius (e : MathEnv) (a b : CelestialBody) (c i : ℕ) :
    (mkFragment e a b c i).radius = fragRadiusVal e a b := rfl

theorem mkFragment_vx (e : MathEnv) (a b : CelestialBody) (c i : ℕ) :
    (mkFragment e a b c i).vx
      = (a.vx * a.mass + b.vx * b.mass) / (a.mass + b.mass)
        + e.cos (fragAngle e c (fragCount a b) i)
            * fragKick e c (kickSpeedVal e a b) i := rfl

theorem mkFragment_vy (e : MathEnv) (a b : CelestialBody) (c i : ℕ) :
    (mkFragment e a b c i).vy
      = (a.vy * a.mass + b.vy * b.mass) / (a.mass + b.mass)
        + e.sin (fragAngle e c (fragCount a b) i)
            * fragKick e c (kickSpeedVal e a b) i := rfl

theorem map_mass_mkFragment (e : MathEnv) (a b : CelestialBody) (c : ℕ)
    (l : List ℕ) :
    ((l.map (mkFragment e a b c)).map fun f => f.mass)
      = List.replicate l.length (fragMassVal a b) := by
  induction l with
  | nil => rfl
  | cons x l ih =>
    simp only [List.map_cons, mkFragment_mass, ih, List.length_cons,
      List.replicate_succ]

theorem map_radius_mkFragment (e : MathEnv) (a b : CelestialBody) (c : ℕ)
    (l : List ℕ) :
    ((l.map (mkFragment e a b c)).map fun f => f.radius)
      = List.replicate l.length (fragRadiusVal e a b) := by
  induction l with
  | nil => rfl
  | cons x l ih =>
    simp only [List.map_cons, mkFragment_radius, ih, List.length_cons,
      List.replicate_succ]

theorem sum_mass_mkFragment (e : MathEnv) (a b : CelestialBody) (c : ℕ)
    (l : List ℕ) :
    (((l.map (mkFragment e a b c)).map fun f => f.mass)).sum
      = (l.length : ℚ) * fragMassVal a b := by
  rw [map_mass_mkFragment]
  simp [List.sum_replicate, nsmul_eq_mul]

theorem sum_momx_mkFragment (e : MathEnv) (a b : CelestialBody) (c : ℕ)
    (l : List ℕ) :
    (((l.map (mkFragment e a b c)).map fun f => f.mass * f.vx)).sum
      = (l.length : ℚ) * fragMassVal a b
          * ((a.vx * a.mass + b.vx * b.mass) / (a.mass + b.mass))
        + fragMassVal a b * (l.map fun i =>
            e.cos (fragAngle e c (fragCount a b) i)
              * fragKick e c (kickSpeedVal e a b) i).sum := by
  induction l with
  | nil => simp
  | cons x l ih =>
    simp only [List.map_cons, List.sum_cons, mkFragment_mass, mkFragment_vx,
      ih, List.length_cons]
    push_cast
    ring

theorem sum_momy_mkFragment (e : MathEnv) (a b : CelestialBody) (c : ℕ)
    (l : List ℕ) :
    (((l.map (mkFragment e a b c)).map fun f => f.mass * f.vy)).sum
      = (l.length : ℚ) * fragMassVal a b
          * ((a.vy * a.mass + b.vy * b.mass) / (a.mass + b.mass))
        + fragMassVal a b * (l.map fun i =>
            e.sin (fragAngle e c (fragCount a b) i)
              * fragKick e c (kickSpeedVal e a b) i).sum := by
  induction l with
  | nil => simp
  | cons x l ih =>
    simp only [List.map_cons, List.sum_cons, mkFragment_mass, mkFragment_vy,
      ih, List.length_cons]
    push_cast
    ring

/-- C5, counterexample: for the pair `(a5, b5)` (combined mass 1, radii 1,
fragment count 3) the source floors each fragment mass at `1`
(`max(1, round(totalMass / N))`), while the claimed value
`round(totalMass / N) = round(1/3)` is `0` — the claim's mass formula is
wrong whenever the rounded share is `0` (and its radius formula likewise
omits the `max(2, ·)` floor). -/
theorem C5_counterexample :
    ¬ ∀ f ∈ (explode envC a5 b5 0).1,
        f.mass = ((jsRound ((a5.mass + b5.mass)
          / (((explode envC a5 b5 0).1.length : ℕ) : ℚ)) : ℤ) : ℚ) :=
  of_decide_eq_true (by with_unfolding_all rfl)

/-- C5, amended: the fragment count is exactly
`clamp(round((r_a+r_b)/3), 3, 8)`; every fragment's mass is
`max(1, round(totalMass / N))` (the integer share floored at one unit) and
every fragment's radius is `max(2, cbrt((r_a³+r_b³)/N))` (the
volume-equivalent share floored at two). -/
theorem C5_amended_fragment_shape (e : MathEnv) (a b : CelestialBody)
    (c : ℕ) :
    (explode e a b c).1.length = fragCount a b ∧
    ((explode e a b c).1.map fun f => f.mass)
      = List.replicate (fragCount a b) (fragMassVal a b) ∧
    ((explode e a b c).1.map fun f => f.radius)
      = List.replicate (fragCount a b) (fragRadiusVal e a b) := by
  refine ⟨by simp [explode], ?_, ?_⟩
  · have h := map_mass_mkFragment e a b c (List.range (fragCount a b))
    rw [List.length_range] at h
    exact h
  · have h := map_radius_mkFragment e a b c (List.range (fragCount a b))
    rw [List.length_range] at h
    exact h

/-- C4, amended: the fragment masses sum to `N · max(1, round(total/N))`
(not exactly to the combined mass), and the total fragment momentum equals
total fragment mass times the pair's center-of-mass velocity *plus* the
fragment mass times the sum of the per-fragment kick components — a sum
that depends on the random draws and need not vanish, so the mass-weighted
average fragment velocity equals the center-of-mass velocity only for
draws whose kick vectors cancel. -/
theorem C4_amended_fragment_momentum (e : MathEnv) (a b : CelestialBody)
    (c : ℕ) :
    ((explode e a b c).1.map fun f => f.mass).sum
      = (fragCount a b : ℚ) * fragMassVal a b ∧
    ((explode e a b c).1.map fun f => f.mass * f.vx).sum
      = (fragCount a b : ℚ) * fragMassVal a b
          * ((a.vx * a.mass + b.vx * b.mass) / (a.mass + b.mass))
        + fragMassVal a b * ((List.range (fragCount a b)).map fun i =>
            e.cos (fragAngle e c (fragCount a b) i)
              * fragKick e c (kickSpeedVal e a b) i).sum ∧
    ((explode e a b c).1.map fun f => f.mass * f.vy).sum
      = (fragCount a b : ℚ) * fragMassVal a b
          * ((a.vy * a.mass + b.vy * b.mass) / (a.mass + b.mass))
        + fragMassVal a b * ((List.range (fragCount a b)).map fun i =>
            e.sin (fragAngle e c (fragCount a b) i)
              * fragKick e c (kickSpeedVal e a b) i).sum := by
  refine ⟨?_, ?_, ?_⟩
  · have h := sum_mass_mkFragment e a b c (List.range (fragCount a b))
    rw [List.length_range] at h
    exact h
  · have h := sum_momx_mkFragment e a b c (List.range (fragCount a b))
    rw [List.length_range] at h
    exact h
  · have h := sum_momy_mkFragment e a b c (List.range (fragCount a b))
    rw [List.length_range] at h
    exact h

/-- C10: `circularOrbitVelocity` is total and never divides by zero: when
the squared Euclidean distance is below 1 (equivalently, the distance is
below 1) it returns 0; otherwise it returns `sqrt(G·M/r)` with
`r = sqrt(d²) ≥ 1` nonzero.  The two hypotheses are facts of the real
square root that the abstract `sqrt` must share (monotone above 1, below 1
on `[0, 1)`). -/
theorem C10_circular_orbit (e : MathEnv) (x y : ℚ) (sp : ℚ × ℚ) (M : ℚ)
    (h1 : ∀ q : ℚ, 1 ≤ q → 1 ≤ e.sqrt q)
    (h2 : ∀ q : ℚ, 0 ≤ q → q < 1 → e.sqrt q < 1) :
    ((x - sp.1) * (x - sp.1) + (y - sp.2) * (y - sp.2) < 1 →
      circularOrbitVelocity e x y sp M = 0) ∧
    (1 ≤ (x - sp.1) * (x - sp.1) + (y - sp.2) * (y - sp.2) →
      circularOrbitVelocity e x y sp M
          = e.sqrt (G * M
              / e.sqrt ((x - sp.1) * (x - sp.1) + (y - sp.2) * (y - sp.2))) ∧
        e.sqrt ((x - sp.1) * (x - sp.1) + (y - sp.2) * (y - sp.2)) ≠ 0) := by
  constructor
  · intro hd
    have h0 : 0 ≤ (x - sp.1) * (x - sp.1) + (y - sp.2) * (y - sp.2) := by
      nlinarith [mul_self_nonneg (x - sp.1), mul_self_nonneg (y - sp.2)]
    have := h2 _ h0 hd
    simp only [circularOrbitVelocity]
    rw [if_pos this]
  · intro hd
    have h1' := h1 _ hd
    have hne : e.sqrt ((x - sp.1) * (x - sp.1) + (y - sp.2) * (y - sp.2)) ≠ 0 := by
      intro h
      rw [h] at h1'
      norm_num at h1'
    refine ⟨?_, hne⟩
    simp only [circularOrbitVelocity]
    rw [if_neg (by exact not_lt.mpr h1')]

/-- Witness for C10 at a concrete query: the point `(3, 4)` at distance 5
from the star position `(0, 0)`, with `envC.sqrt = id` (which satisfies
both square-root hypotheses). -/
theorem C10_circular_orbit_witness :
    (((3 : ℚ) - 0) * (3 - 0) + (4 - 0) * (4 - 0) < 1 →
      circularOrbitVelocity envC 3 4 (0, 0) 25 = 0) ∧
    (1 ≤ ((3 : ℚ) - 0) * (3 - 0) + (4 - 0) * (4 - 0) →
      circularOrbitVelocity envC 3 4 (0, 0) 25
          = envC.sqrt (G * 25
              / envC.sqrt (((3 : ℚ) - 0) * (3 - 0) + (4 - 0) * (4 - 0))) ∧
        envC.sqrt (((3 : ℚ) - 0) * (3 - 0) + (4 - 0) * (4 - 0)) ≠ 0) :=
  C10_circular_orbit envC 3 4 (0, 0) 25 (fun _ h => h) (fun _ _ h => h)

/-- C7: one `step` call is exactly four iterations, at substep size
`Δt/4`, of: accelerations at current positions, half-kick + drift,
accelerations at the new positions, second half-kick, trail recording,
then one collision-resolution pass — so accelerations are computed twice
and collisions are resolved once per substep. -/
theorem C7_step_structure (e : MathEnv) (t : ℚ) (x : Bool)
    (st : SimState n) :
    SUBSTEPS = 4 ∧
    step e t x st
      = (fun s : SimState n =>
          handleCollisions e x
            { s with bodies := fun k =>
                pushTrail (halfKick (t / 4)
                  ((computeAccelerations e s.star fun k' =>
                      halfKickDrift (t / 4)
                        (computeAccelerations e s.star s.bodies k')) k)) })^[4]
        { st with frags := [] } := by
  refine ⟨rfl, ?_⟩
  with_unfolding_all rfl

theorem bodyPairCollide_trail (e : MathEnv) (expl : Bool) (i j : Fin n)
    (st : SimState n) (k : Fin n) :
    ((bodyPairCollide e expl i j st).bodies k).trail
      = (st.bodies k).trail := by
  simp only [bodyPairCollide]
  split
  · rfl
  · split
    · split <;>
      · dsimp only
        rcases eq_or_ne k j with rfl | hkj
        · rw [Function.update_same]
          all_goals rfl
        · rw [Function.update_noteq hkj]
          rcases eq_or_ne k i with rfl | hki
          · rw [Function.update_same]
            all_goals rfl
          · rw [Function.update_noteq hki]
    · rfl

theorem bodyPairCollide_star (e : MathEnv) (expl : Bool) (i j : Fin n)
    (st : SimState n) :
    (bodyPairCollide e expl i j st).star = st.star := by
  simp only [bodyPairCollide]
  split
  · rfl
  · split
    · split <;> rfl
    · rfl

theorem bodyPairCollide_merged_mono (e : MathEnv) (expl : Bool)
    (i j : Fin n) (st : SimState n) (k : Fin n)
    (h : (st.bodies k).merged = true) :
    ((bodyPairCollide e expl i j st).bodies k).merged = true := by
  simp only [bodyPairCollide]
  split
  · exact h
  · split
    · split <;>
      · dsimp only
        rcases eq_or_ne k j with rfl | hkj
        · rw [Function.update_same]
          all_goals rfl
        · rw [Function.update_noteq hkj]
          rcases eq_or_ne k i with rfl | hki
          · rw [Function.update_same]
            all_goals first
            | rfl
            | exact h
          · rw [Function.update_noteq hki]
            exact h
    · exact h

theorem bodyPairCollide_of_no_overlap (e : MathEnv) (expl : Bool)
    (i j : Fin n) (st : SimState n)
    (h : bodyOverlap (st.bodies i) (st.bodies j) = false) :
    bodyPairCollide e expl i j st = st := by
  simp only [bodyPairCollide]
  split
  · rfl
  · rw [h]
    rfl

theorem innerFold_trail (e : MathEnv) (expl : Bool) (i : Fin n)
    (js : List (Fin n)) :
    ∀ (st : SimState n) (k : Fin n),
      ((js.foldl (fun s j => bodyPairCollide e expl i j s) st).bodies k).trail
        = (st.bodies k).trail := by
  induction js with
  | nil => intro st k; rfl
  | cons j js ih =>
    intro st k
    rw [List.foldl_cons, ih, bodyPairCollide_trail]

theorem innerFold_star (e : MathEnv) (expl : Bool) (i : Fin n)
    (js : List (Fin n)) :
    ∀ st : SimState n,
      (js.foldl (fun s j => bodyPairCollide e expl i j s) st).star
        = st.star := by
  induction js with
  | nil => intro st; rfl
  | cons j js ih =>
    intro st
    rw [List.foldl_cons, ih, bodyPairCollide_star]

theorem innerFold_merged_mono (e : MathEnv) (expl : Bool) (i : Fin n)
    (js : List (Fin n)) :
    ∀ (st : SimState n) (k : Fin n), (st.bodies k).merged = true →
      ((js.foldl (fun s j => bodyPairCollide e expl i j s) st).bodies
          k).merged = true := by
  induction js with
  | nil => intro st k h; exact h
  | cons j js ih =>
    intro st k h
    rw [List.foldl_cons]
    exact ih _ k (bodyPairCollide_merged_mono e expl i j st k h)

theorem bodyCollide_trail (e : MathEnv) (expl : Bool) :
    ∀ (is : List (Fin n)) (st : SimState n) (k : Fin n),
      ((is.foldl (fun s i =>
          if (s.bodies i).merged then s else innerCollide e expl i s)
        st).bodies k).trail = (st.bodies k).trail := by
  intro is
  induction is with
  | nil => intro st k; rfl
  | cons i is ih =>
    intro st k
    rw [List.foldl_cons, ih]
    split
    · rfl
    · exact innerFold_trail e expl i _ st k

theorem bodyCollide_star (e : MathEnv) (expl : Bool) :
    ∀ (is : List (Fin n)) (st : SimState n),
      (is.foldl (fun s i =>
          if (s.bodies i).merged then s else innerCollide e expl i s)
        st).star = st.star := by
  intro is
  induction is with
  | nil => intro st; rfl
  | cons i is ih =>
    intro st
    rw [List.foldl_cons, ih]
    split
    · rfl
    · exact innerFold_star e expl i _ st

theorem bodyCollide_merged_mono (e : MathEnv) (expl : Bool) :
    ∀ (is : List (Fin n)) (st : SimState n) (k : Fin n),
      (st.bodies k).merged = true →
      ((is.foldl (fun s i =>
          if (s.bodies i).merged then s else innerCollide e expl i s)
        st).bodies k).merged = true := by
  intro is
  induction is with
  | nil => intro st k h; exact h
  | cons i is ih =>
    intro st k h
    rw [List.foldl_cons]
    refine ih _ k ?_
    split
    · exact h
    · exact innerFold_merged_mono e expl i _ st k h

theorem starAbsorb_trail (s : Star) (b : CelestialBody) :
    (starAbsorb s b).trail = b.trail := by
  unfold starAbsorb
  split <;> rfl

theorem starAbsorbPhase_star (st : SimState n) :
    (starAbsorbPhase st).star = st.star := by
  unfold starAbsorbPhase
  split <;> rfl

theorem handleCollisions_trail (e : MathEnv) (expl : Bool)
    (st : SimState n) (k : Fin n) :
    ((handleCollisions e expl st).bodies k).trail
      = (st.bodies k).trail := by
  refine Eq.trans
    (bodyCollide_trail e expl (List.finRange n) (starAbsorbPhase st) k) ?_
  unfold starAbsorbPhase
  split
  · rfl
  · exact starAbsorb_trail _ _

theorem handleCollisions_star (e : MathEnv) (expl : Bool)
    (st : SimState n) :
    (handleCollisions e expl st).star = st.star :=
  Eq.trans (bodyCollide_star e expl (List.finRange n) (starAbsorbPhase st))
    (starAbsorbPhase_star st)

theorem handleCollisions_id (e : MathEnv) (expl : Bool) (st : SimState n)
    (hstar : ∀ s, st.star = some s →
      ∀ k, starOverlap s (st.bodies k) = false)
    (hbody : ∀ i j : Fin n, i < j →
      bodyOverlap (st.bodies i) (st.bodies j) = false) :
    handleCollisions e expl st = st := by
  have habs : starAbsorbPhase st = st := by
    unfold starAbsorbPhase
    split
    · rfl
    · rename_i s hs
      have : (fun k => starAbsorb s (st.bodies k)) = st.bodies := by
        funext k
        unfold starAbsorb
        rw [hstar s hs k]
        simp
      rw [this]
  have hmain : handleCollisions e expl st = bodyCollide e expl st := by
    rw [show handleCollisions e expl st
        = bodyCollide e expl (starAbsorbPhase st) from rfl, habs]
  rw [hmain]
  have hinner : ∀ (i : Fin n) (js : List (Fin n)),
      (∀ j ∈ js, i < j) →
      js.foldl (fun s j => bodyPairCollide e expl i j s) st = st := by
    intro i js
    induction js with
    | nil => intro _; rfl
    | cons j js ih =>
      intro hj
      rw [List.foldl_cons,
        bodyPairCollide_of_no_overlap e expl i j st
          (hbody i j (hj j (List.mem_cons_self j js)))]
      exact ih fun j' hj' => hj j' (List.mem_cons_of_mem j hj')
  have hstep : ∀ i : Fin n,
      (if (st.bodies i).merged then st else innerCollide e expl i st)
        = st := by
    intro i
    split
    · rfl
    · unfold innerCollide
      exact hinner i _ fun j hj => (List.mem_filter.mp hj).2 |> of_decide_eq_true
  have : ∀ is : List (Fin n),
      is.foldl (fun s i =>
        if (s.bodies i).merged then s else innerCollide e expl i s) st
      = st := by
    intro is
    induction is with
    | nil => rfl
    | cons i is ih =>
      rw [List.foldl_cons, hstep i]
      exact ih
  exact this _

theorem starAbsorbPhase_bodies (st : SimState n) (s : Star)
    (hs : st.star = some s) :
    (starAbsorbPhase st).bodies = fun k => starAbsorb s (st.bodies k) := by
  unfold starAbsorbPhase
  rw [hs]

/-- C8: with an attractor present, every body inside the absorption band
`dist < r_star + 0.5 * r_body` at entry of the resolution pass is flagged
merged by the pass, under either policy; the star itself is returned
unchanged (it has no flag to set and no field is ever written). -/
theorem C8_star_absorption (e : MathEnv) (expl : Bool) (st : SimState n)
    (s : Star) (hs : st.star = some s) (i : Fin n)
    (hov : starOverlap s (st.bodies i) = true) :
    ((handleCollisions e expl st).bodies i).merged = true ∧
    (handleCollisions e expl st).star = st.star := by
  refine ⟨?_, handleCollisions_star e expl st⟩
  have habs : ((starAbsorbPhase st).bodies i).merged = true := by
    have hb : (starAbsorbPhase st).bodies i = starAbsorb s (st.bodies i) := by
      rw [starAbsorbPhase_bodies st s hs]
    rw [hb]
    unfold starAbsorb
    rw [hov]
    rfl
  exact bodyCollide_merged_mono e expl (List.finRange n)
    (starAbsorbPhase st) i habs

/-- Witness for C8: the concrete state `st8` (body at distance 5, star
radius 30), under the merge policy. -/
theorem C8_star_absorption_witness :
    (st8.star = some starC ∧ starOverlap starC (st8.bodies 0) = true) ∧
    (((handleCollisions envC false st8).bodies 0).merged = true ∧
     (handleCollisions envC false st8).star = st8.star) :=
  ⟨⟨rfl, of_decide_eq_true (by with_unfolding_all rfl)⟩,
   C8_star_absorption envC false st8 starC rfl 0
     (of_decide_eq_true (by with_unfolding_all rfl))⟩

theorem sameKinTrail_trans {a b c : CelestialBody}
    (h1 : sameKinTrail a b) (h2 : sameKinTrail b c) : sameKinTrail a c := by
  obtain ⟨⟨x1, y1, vx1, vy1, m1, r1, g1, c1⟩, t1⟩ := h1
  obtain ⟨⟨x2, y2, vx2, vy2, m2, r2, g2, c2⟩, t2⟩ := h2
  exact ⟨⟨x1.trans x2, y1.trans y2, vx1.trans vx2, vy1.trans vy2,
    m1.trans m2, r1.trans r2, g1.trans g2, c1.trans c2⟩, t1.trans t2⟩

theorem pairAccelStep_kin (e : MathEnv) (f : Fin n → CelestialBody)
    (p : Fin n × Fin n) (k : Fin n) :
    sameKinTrail (pairAccelStep e f p k) (f k) := by
  simp only [pairAccelStep]
  rcases eq_or_ne k p.2 with rfl | hk2
  · rw [Function.update_same]
    exact ⟨⟨rfl, rfl, rfl, rfl, rfl, rfl, rfl, rfl⟩, rfl⟩
  · rw [Function.update_noteq hk2]
    rcases eq_or_ne k p.1 with rfl | hk1
    · rw [Function.update_same]
      exact ⟨⟨rfl, rfl, rfl, rfl, rfl, rfl, rfl, rfl⟩, rfl⟩
    · rw [Function.update_noteq hk1]
      exact ⟨⟨rfl, rfl, rfl, rfl, rfl, rfl, rfl, rfl⟩, rfl⟩

theorem foldPair_kin (e : MathEnv) (ps : List (Fin n × Fin n)) :
    ∀ (f : Fin n → CelestialBody) (k : Fin n),
      sameKinTrail ((ps.foldl (pairAccelStep e) f) k) (f k) := by
  induction ps with
  | nil =>
    intro f k
    exact ⟨⟨rfl, rfl, rfl, rfl, rfl, rfl, rfl, rfl⟩, rfl⟩
  | cons p ps ih =>
    intro f k
    exact sameKinTrail_trans (ih (pairAccelStep e f p) k)
      (pairAccelStep_kin e f p k)

theorem starKick_kin (e : MathEnv) (s : Star) (b : CelestialBody) :
    sameKinTrail (starKick e s b) b :=
  ⟨⟨rfl, rfl, rfl, rfl, rfl, rfl, rfl, rfl⟩, rfl⟩

/-- The force accumulator overwrites only the acceleration: position,
velocity, mass, radius, trail, merged flag and color of every body are
left unchanged. -/
theorem computeAccelerations_kin (e : MathEnv) (s? : Option Star)
    (b : Fin n → CelestialBody) (k : Fin n) :
    sameKinTrail (computeAccelerations e s? b k) (b k) := by
  cases s? with
  | none =>
    exact sameKinTrail_trans
      (foldPair_kin e (accelPairs n)
        (fun k' => { b k' with ax := 0, ay := 0 }) k)
      ⟨⟨rfl, rfl, rfl, rfl, rfl, rfl, rfl, rfl⟩, rfl⟩
  | some s =>
    exact sameKinTrail_trans
      (foldPair_kin e (accelPairs n)
        (fun k' => starKick e s { b k' with ax := 0, ay := 0 }) k)
      (sameKinTrail_trans
        (starKick_kin e s { b k with ax := 0, ay := 0 })
        ⟨⟨rfl, rfl, rfl, rfl, rfl, rfl, rfl, rfl⟩, rfl⟩)

theorem halfKickDrift_zero (b : CelestialBody) : halfKickDrift 0 b = b := by
  cases b
  simp [halfKickDrift]

theorem halfKick_zero (b : CelestialBody) : halfKick 0 b = b := by
  cases b
  simp [halfKick]

theorem starOverlap_congr (s : Star) (b b' : CelestialBody)
    (hx : b.x = b'.x) (hy : b.y = b'.y) (hr : b.radius = b'.radius) :
    starOverlap s b = starOverlap s b' := by
  unfold starOverlap
  rw [hx, hy, hr]

theorem bodyOverlap_congr (a a' b b' : CelestialBody)
    (hax : a.x = a'.x) (hay : a.y = a'.y) (har : a.radius = a'.radius)
    (hbx : b.x = b'.x) (hby : b.y = b'.y) (hbr : b.radius = b'.radius) :
    bodyOverlap a b = bodyOverlap a' b' := by
  unfold bodyOverlap
  rw [hax, hay, har, hbx, hby, hbr]

theorem TRAIL_MAX_LENGTH_eq : TRAIL_MAX_LENGTH = 300 := rfl

theorem SUBSTEPS_eq : SUBSTEPS = 4 := rfl

theorem pushTrail_trail_eq (c : CelestialBody) (t : List (ℚ × ℚ))
    (h : c.trail = t) :
    (pushTrail c).trail = pushPoint t (c.x, c.y) := by
  rw [show (pushTrail c).trail = pushPoint c.trail (c.x, c.y) from rfl, h]

/-- Collision resolution is the identity when the pass's overlap guards
are all false; stated for a state whose bodies are trail-pushed versions
of kinematically known bodies. -/
theorem collide_pushed_id (e : MathEnv) (expl : Bool) (st : SimState n)
    (B : Fin n → CelestialBody)
    (hkinB : ∀ k, sameKinTrail (B k) (st.bodies k))
    (hstar : ∀ s, st.star = some s →
      ∀ k, starOverlap s (st.bodies k) = false)
    (hbody : ∀ i j : Fin n, i < j →
      bodyOverlap (st.bodies i) (st.bodies j) = false) :
    handleCollisions e expl { st with bodies := fun k => pushTrail (B k) }
      = { st with bodies := fun k => pushTrail (B k) } := by
  apply handleCollisions_id
  · intro s hs k
    obtain ⟨⟨hx, hy, _, _, _, hr, _, _⟩, _⟩ := hkinB k
    have hx' : (pushTrail (B k)).x = (st.bodies k).x := hx
    have hy' : (pushTrail (B k)).y = (st.bodies k).y := hy
    have hr' : (pushTrail (B k)).radius = (st.bodies k).radius := hr
    show starOverlap s (pushTrail (B k)) = false
    rw [starOverlap_congr s _ _ hx' hy' hr']
    exact hstar s hs k
  · intro i j hij
    obtain ⟨⟨hxi, hyi, _, _, _, hri, _, _⟩, _⟩ := hkinB i
    obtain ⟨⟨hxj, hyj, _, _, _, hrj, _, _⟩, _⟩ := hkinB j
    have hxi' : (pushTrail (B i)).x = (st.bodies i).x := hxi
    have hyi' : (pushTrail (B i)).y = (st.bodies i).y := hyi
    have hri' : (pushTrail (B i)).radius = (st.bodies i).radius := hri
    have hxj' : (pushTrail (B j)).x = (st.bodies j).x := hxj
    have hyj' : (pushTrail (B j)).y = (st.bodies j).y := hyj
    have hrj' : (pushTrail (B j)).radius = (st.bodies j).radius := hrj
    show bodyOverlap (pushTrail (B i)) (pushTrail (B j)) = false
    rw [bodyOverlap_congr _ _ _ _ hxi' hyi' hri' hxj' hyj' hrj']
    exact hbody i j hij

/-- A `Δt = 0` substep: star, fragment list and every kinematic field are
unchanged; the only observable effect is one trail entry per body,
recorded at the unchanged position. -/
theorem substep_zero_spec (e : MathEnv) (expl : Bool) (st : SimState n)
    (hstar : ∀ s, st.star = some s →
      ∀ k, starOverlap s (st.bodies k) = false)
    (hbody : ∀ i j : Fin n, i < j →
      bodyOverlap (st.bodies i) (st.bodies j) = false) :
    (substep e expl 0 st).star = st.star ∧
    (substep e expl 0 st).frags = st.frags ∧
    ∀ k, sameKin ((substep e expl 0 st).bodies k) (st.bodies k) ∧
      ((substep e expl 0 st).bodies k).trail
        = pushPoint (st.bodies k).trail
            ((st.bodies k).x, (st.bodies k).y) := by
  have hkinB : ∀ k, sameKinTrail
      ((computeAccelerations e st.star
        (computeAccelerations e st.star st.bodies)) k) (st.bodies k) :=
    fun k => sameKinTrail_trans
      (computeAccelerations_kin e st.star _ k)
      (computeAccelerations_kin e st.star st.bodies k)
  have hid1 : (fun k' => halfKickDrift 0
      (computeAccelerations e st.star st.bodies k'))
      = computeAccelerations e st.star st.bodies :=
    funext fun k' => halfKickDrift_zero _
  have hsub : substep e expl 0 st
      = handleCollisions e expl
          { st with bodies := fun k =>
              pushTrail (computeAccelerations e st.star
                (computeAccelerations e st.star st.bodies) k) } := by
    show handleCollisions e expl
        { st with bodies := fun k =>
            pushTrail (halfKick 0
              ((computeAccelerations e st.star
                (fun k' => halfKickDrift 0
                  (computeAccelerations e st.star st.bodies k'))) k)) } = _
    rw [hid1]
    have h2 : (fun k => pushTrail (halfKick 0
        ((computeAccelerations e st.star
          (computeAccelerations e st.star st.bodies)) k)))
        = fun k => pushTrail ((computeAccelerations e st.star
            (computeAccelerations e st.star st.bodies)) k) :=
      funext fun k => by rw [halfKick_zero]
    rw [h2]
  rw [hsub, collide_pushed_id e expl st _ hkinB hstar hbody]
  refine ⟨rfl, rfl, fun k => ?_⟩
  obtain ⟨⟨hx, hy, hvx, hvy, hm, hr, hg, hc⟩, ht⟩ := hkinB k
  refine ⟨⟨hx, hy, hvx, hvy, hm, hr, hg, hc⟩, ?_⟩
  exact (pushTrail_trail_eq _ _ ht).trans (by rw [hx, hy])

theorem iterate_substep_zero (e : MathEnv) (expl : Bool) :
    ∀ (m : ℕ) (st : SimState n),
    (∀ s, st.star = some s → ∀ k, starOverlap s (st.bodies k) = false) →
    (∀ i j : Fin n, i < j →
      bodyOverlap (st.bodies i) (st.bodies j) = false) →
    ((substep e expl 0)^[m] st).star = st.star ∧
    ∀ k, sameKin (((substep e expl 0)^[m] st).bodies k) (st.bodies k) ∧
      (((substep e expl 0)^[m] st).bodies k).trail
        = (fun t => pushPoint t ((st.bodies k).x, (st.bodies k).y))^[m]
            ((st.bodies k).trail) := by
  intro m
  induction m with
  | zero =>
    intro st h1 h2
    exact ⟨rfl, fun k => ⟨⟨rfl, rfl, rfl, rfl, rfl, rfl, rfl, rfl⟩, rfl⟩⟩
  | succ m ih =>
    intro st h1 h2
    obtain ⟨hstar1, _, hrest⟩ := substep_zero_spec e expl st h1 h2
    have h1' : ∀ s, (substep e expl 0 st).star = some s →
        ∀ k, starOverlap s ((substep e expl 0 st).bodies k) = false := by
      intro s hs k
      obtain ⟨⟨hx, hy, _, _, _, hr, _, _⟩, _⟩ := hrest k
      rw [starOverlap_congr s _ _ hx hy hr]
      exact h1 s (hstar1 ▸ hs) k
    have h2' : ∀ i j : Fin n, i < j →
        bodyOverlap ((substep e expl 0 st).bodies i)
          ((substep e expl 0 st).bodies j) = false := by
      intro i j hij
      obtain ⟨⟨hxi, hyi, _, _, _, hri, _, _⟩, _⟩ := hrest i
      obtain ⟨⟨hxj, hyj, _, _, _, hrj, _, _⟩, _⟩ := hrest j
      rw [bodyOverlap_congr _ _ _ _ hxi hyi hri hxj hyj hrj]
      exact h2 i j hij
    obtain ⟨ihstar, ihrest⟩ := ih (substep e expl 0 st) h1' h2'
    rw [Function.iterate_succ_apply]
    refine ⟨ihstar.trans hstar1, fun k => ?_⟩
    obtain ⟨⟨hx1, hy1, hvx1, hvy1, hm1, hr1, hg1, hc1⟩, ht1⟩ := hrest k
    obtain ⟨⟨hx2, hy2, hvx2, hvy2, hm2, hr2, hg2, hc2⟩, ht2⟩ := ihrest k
    refine ⟨⟨hx2.trans hx1, hy2.trans hy1, hvx2.trans hvx1,
      hvy2.trans hvy1, hm2.trans hm1, hr2.trans hr1, hg2.trans hg1,
      hc2.trans hc1⟩, ?_⟩
    rw [ht2, hx1, hy1, ht1, Function.iterate_succ_apply]

/-- C3, amended: with `frameTimeSec = 0`, provided no body overlaps
another body or the star at its current position (so the still-running
per-substep collision pass fires on nothing), `step` leaves every body's
position and velocity unchanged — but each trail grows by one copy of the
current position per substep (4 copies), with oldest-eviction beyond the
cap, so trail contents are NOT unchanged. -/
theorem C3_amended_zero_dt (e : MathEnv) (expl : Bool) (st : SimState n)
    (hstar : ∀ s, st.star = some s →
      ∀ k, starOverlap s (st.bodies k) = false)
    (hbody : ∀ i j : Fin n, i < j →
      bodyOverlap (st.bodies i) (st.bodies j) = false)
    (k : Fin n) :
    ((step e 0 expl st).bodies k).x = (st.bodies k).x ∧
    ((step e 0 expl st).bodies k).y = (st.bodies k).y ∧
    ((step e 0 expl st).bodies k).vx = (st.bodies k).vx ∧
    ((step e 0 expl st).bodies k).vy = (st.bodies k).vy ∧
    ((step e 0 expl st).bodies k).trail
      = (fun t => pushPoint t ((st.bodies k).x, (st.bodies k).y))^[SUBSTEPS]
          ((st.bodies k).trail) := by
  have hstep : step e 0 expl st
      = (substep e expl 0)^[SUBSTEPS] { st with frags := [] } := by
    show (substep e expl ((0 : ℚ) / ((SUBSTEPS : ℕ) : ℚ)))^[SUBSTEPS]
        { st with frags := [] } = _
    rw [zero_div]
  obtain ⟨_, hrest⟩ := iterate_substep_zero e expl SUBSTEPS
    { st with frags := [] } hstar hbody
  obtain ⟨⟨hx, hy, hvx, hvy, _, _, _, _⟩, ht⟩ := hrest k
  rw [hstep]
  exact ⟨hx, hy, hvx, hvy, ht⟩

/-- Witness for the amended C3 at the single-body state `st9`. -/
theorem C3_amended_zero_dt_witness :
    (∀ s, st9.star = some s →
      ∀ k, starOverlap s (st9.bodies k) = false) ∧
    (∀ i j : Fin 1, i < j →
      bodyOverlap (st9.bodies i) (st9.bodies j) = false) ∧
    (((step envC 0 false st9).bodies 0).x = (st9.bodies 0).x ∧
     ((step envC 0 false st9).bodies 0).y = (st9.bodies 0).y ∧
     ((step envC 0 false st9).bodies 0).vx = (st9.bodies 0).vx ∧
     ((step envC 0 false st9).bodies 0).vy = (st9.bodies 0).vy ∧
     ((step envC 0 false st9).bodies 0).trail
       = (fun t => pushPoint t
           ((st9.bodies 0).x, (st9.bodies 0).y))^[SUBSTEPS]
           ((st9.bodies 0).trail)) :=
  ⟨fun s hs => Option.noConfusion hs,
   fun i j hij => absurd hij (by omega),
   C3_amended_zero_dt envC false st9
     (fun s hs => Option.noConfusion hs)
     (fun i j hij => absurd hij (by omega)) 0⟩

theorem pushPoint_length (t : List (ℚ × ℚ)) (p : ℚ × ℚ)
    (h : t.length ≤ TRAIL_MAX_LENGTH) :
    (pushPoint t p).length = min (t.length + 1) TRAIL_MAX_LENGTH := by
  rw [TRAIL_MAX_LENGTH_eq] at *
  simp only [pushPoint, TRAIL_MAX_LENGTH_eq]
  split
  · rename_i hgt
    simp only [List.length_tail, List.length_append, List.length_singleton]
      at hgt ⊢
    omega
  · rename_i hle
    simp only [List.length_append, List.length_singleton] at hle ⊢
    omega

theorem pushPoint_spec (t : List (ℚ × ℚ)) (p : ℚ × ℚ)
    (h : t.length ≤ TRAIL_MAX_LENGTH) :
    pushPoint t p
      = if t.length < TRAIL_MAX_LENGTH then t ++ [p]
        else t.tail ++ [p] := by
  rw [TRAIL_MAX_LENGTH_eq] at *
  simp only [pushPoint, TRAIL_MAX_LENGTH_eq]
  rcases Nat.lt_or_ge t.length 300 with hlt | hge
  · have hg : ¬ 300 < (t ++ [p]).length := by
      simp only [List.length_append, List.length_singleton]
      omega
    rw [if_neg hg, if_pos hlt]
  · have h300 : t.length = 300 := Nat.le_antisymm h hge
    have hg : 300 < (t ++ [p]).length := by
      simp only [List.length_append, List.length_singleton]
      omega
    rw [if_pos hg, if_neg (by omega)]
    rcases t with _ | ⟨hd, tl⟩
    · simp at h300
    · rfl

/-- Each substep appends exactly one point to every body's trail: the
collision pass never touches trails, and the kick/drift/force phases
preserve them. -/
theorem substep_trail_point (e : MathEnv) (expl : Bool) (dt : ℚ)
    (st : SimState n) (k : Fin n) : ∃ p,
    ((substep e expl dt st).bodies k).trail
      = pushPoint (st.bodies k).trail p := by
  have ht : ((computeAccelerations e st.star
      (fun k'' => halfKickDrift dt
        (computeAccelerations e st.star st.bodies k''))) k).trail
      = (st.bodies k).trail :=
    ((computeAccelerations_kin e st.star _ k).2).trans
      ((computeAccelerations_kin e st.star st.bodies k).2)
  exact ⟨_, Eq.trans
    (handleCollisions_trail e expl
      { st with bodies := fun k' =>
          pushTrail (halfKick dt
            ((computeAccelerations e st.star
              (fun k'' => halfKickDrift dt
                (computeAccelerations e st.star st.bodies k''))) k')) } k)
    (pushTrail_trail_eq _ _ ht)⟩

theorem substep_trail_length (e : MathEnv) (expl : Bool) (dt : ℚ)
    (st : SimState n) (k : Fin n)
    (h : (st.bodies k).trail.length ≤ TRAIL_MAX_LENGTH) :
    ((substep e expl dt st).bodies k).trail.length
      = min ((st.bodies k).trail.length + 1) TRAIL_MAX_LENGTH := by
  obtain ⟨p, hp⟩ := substep_trail_point e expl dt st k
  rw [hp, pushPoint_length _ _ h]

theorem iterate_substep_trail_length (e : MathEnv) (expl : Bool) (dt : ℚ) :
    ∀ (m : ℕ) (st : SimState n) (k : Fin n),
    (st.bodies k).trail.length ≤ TRAIL_MAX_LENGTH →
    (((substep e expl dt)^[m] st).bodies k).trail.length
      = min ((st.bodies k).trail.length + m) TRAIL_MAX_LENGTH := by
  intro m
  induction m with
  | zero =>
    intro st k h
    simp only [Function.iterate_zero_apply]
    rw [TRAIL_MAX_LENGTH_eq] at *
    omega
  | succ m ih =>
    intro st k h
    rw [Function.iterate_succ_apply]
    have h1 := substep_trail_length e expl dt st k h
    have h2 : ((substep e expl dt st).bodies k).trail.length
        ≤ TRAIL_MAX_LENGTH := by
      rw [h1, TRAIL_MAX_LENGTH_eq]
      omega
    have h3 := ih (substep e expl dt st) k h2
    rw [h3, h1, TRAIL_MAX_LENGTH_eq] at *
    omega

theorem step_trail_length (e : MathEnv) (tm : ℚ) (expl : Bool)
    (st : SimState n) (k : Fin n)
    (h : (st.bodies k).trail.length ≤ TRAIL_MAX_LENGTH) :
    ((step e tm expl st).bodies k).trail.length
      = min ((st.bodies k).trail.length + SUBSTEPS) TRAIL_MAX_LENGTH :=
  iterate_substep_trail_length e expl (tm / ((SUBSTEPS : ℕ) : ℚ)) SUBSTEPS
    { st with frags := [] } k h

theorem iterate_step_trail_length (e : MathEnv) (tm : ℚ) (expl : Bool) :
    ∀ (s : ℕ) (st : SimState n) (k : Fin n),
    (st.bodies k).trail.length ≤ TRAIL_MAX_LENGTH →
    (((fun st' => step e tm expl st')^[s] st).bodies k).trail.length
      = min ((st.bodies k).trail.length + SUBSTEPS * s)
          TRAIL_MAX_LENGTH := by
  intro s
  induction s with
  | zero =>
    intro st k h
    simp only [Function.iterate_zero_apply]
    rw [TRAIL_MAX_LENGTH_eq] at *
    omega
  | succ s ih =>
    intro st k h
    rw [Function.iterate_succ_apply]
    have h1 := step_trail_length e tm expl st k h
    have h2 : ((step e tm expl st).bodies k).trail.length
        ≤ TRAIL_MAX_LENGTH := by
      rw [h1, TRAIL_MAX_LENGTH_eq]
      omega
    have h3 := ih (step e tm expl st) k h2
    rw [h3, h1, TRAIL_MAX_LENGTH_eq, SUBSTEPS_eq] at *
    omega

/-- C9, amended: trails are bounded by 300 entries with append-at-end and
oldest-eviction, but one entry is recorded per *substep*, so a body
starting with an empty trail has trail length `min(4·steps_taken, 300)`
after `steps_taken` calls of `step` — not `min(steps_taken, 300)`. -/
theorem C9_amended_trail :
    (∀ (t : List (ℚ × ℚ)) (p : ℚ × ℚ), t.length ≤ TRAIL_MAX_LENGTH →
      pushPoint t p
        = if t.length < TRAIL_MAX_LENGTH then t ++ [p]
          else t.tail ++ [p]) ∧
    (∀ (e : MathEnv) (tm : ℚ) (expl : Bool) (st : SimState n) (k : Fin n),
      (st.bodies k).trail.length ≤ TRAIL_MAX_LENGTH →
      ((step e tm expl st).bodies k).trail.length
        = min ((st.bodies k).trail.length + SUBSTEPS) TRAIL_MAX_LENGTH) ∧
    (∀ (e : MathEnv) (tm : ℚ) (expl : Bool) (st : SimState n) (k : Fin n)
        (s : ℕ),
      (st.bodies k).trail.length = 0 →
      (((fun st' => step e tm expl st')^[s] st).bodies k).trail.length
        = min (SUBSTEPS * s) TRAIL_MAX_LENGTH) := by
  refine ⟨pushPoint_spec, step_trail_length, ?_⟩
  intro e tm expl st k s h
  have h0 : (st.bodies k).trail.length ≤ TRAIL_MAX_LENGTH := by
    rw [h, TRAIL_MAX_LENGTH_eq]
    omega
  have := iterate_step_trail_length e tm expl s st k h0
  rw [h] at this
  simpa using this

/-- Witness for the amended C9 at the single-body state `st9` and one
`step` call. -/
theorem C9_amended_trail_witness :
    (([] : List (ℚ × ℚ)).length ≤ TRAIL_MAX_LENGTH ∧
      pushPoint [] ((0 : ℚ), (0 : ℚ))
        = if ([] : List (ℚ × ℚ)).length < TRAIL_MAX_LENGTH
          then [] ++ [((0 : ℚ), (0 : ℚ))]
          else ([] : List (ℚ × ℚ)).tail ++ [((0 : ℚ), (0 : ℚ))]) ∧
    ((st9.bodies 0).trail.length ≤ TRAIL_MAX_LENGTH ∧
      ((step envC 0 false st9).bodies 0).trail.length
        = min ((st9.bodies 0).trail.length + SUBSTEPS) TRAIL_MAX_LENGTH) ∧
    ((st9.bodies 0).trail.length = 0 ∧
      (((fun st' => step envC 0 false st')^[1] st9).bodies 0).trail.length
        = min (SUBSTEPS * 1) TRAIL_MAX_LENGTH) :=
  ⟨⟨by decide,
    (@C9_amended_trail 1).1 [] ((0 : ℚ), (0 : ℚ)) (by decide)⟩,
   ⟨of_decide_eq_true (by with_unfolding_all rfl),
    (@C9_amended_trail 1).2.1 envC 0 false st9 0
      (of_decide_eq_true (by with_unfolding_all rfl))⟩,
   ⟨of_decide_eq_true (by with_unfolding_all rfl),
    (@C9_amended_trail 1).2.2 envC 0 false st9 0 1
      (of_decide_eq_true (by with_unfolding_all rfl))⟩⟩

theorem accelPairs_lt : ∀ p ∈ accelPairs n, p.1 < p.2 := by
  intro p hp
  simp only [accelPairs, List.mem_flatMap, List.mem_map,
    List.mem_filter] at hp
  obtain ⟨i, _, j, ⟨_, hij⟩, rfl⟩ := hp
  first
  | exact hij
  | exact of_decide_eq_true hij

theorem bodyAccelTerm_congr (e : MathEnv) {b b' : Fin n → CelestialBody}
    (h : ∀ k', (b k').x = (b' k').x ∧ (b k').y = (b' k').y ∧
      (b k').mass = (b' k').mass) (k l : Fin n) :
    bodyAccelTerm e b k l = bodyAccelTerm e b' k l := by
  simp only [bodyAccelTerm]
  rw [(h k).1, (h k).2.1, (h l).1, (h l).2.1, (h l).2.2]

theorem pairDelta_congr (e : MathEnv) {b b' : Fin n → CelestialBody}
    (h : ∀ k', (b k').x = (b' k').x ∧ (b k').y = (b' k').y ∧
      (b k').mass = (b' k').mass) (p : Fin n × Fin n) (k : Fin n) :
    pairDelta e b p k = pairDelta e b' p k := by
  simp only [pairDelta]
  rw [bodyAccelTerm_congr e h k p.2, bodyAccelTerm_congr e h k p.1]

theorem pairAccelStep_accel (e : MathEnv) (f : Fin n → CelestialBody)
    (p : Fin n × Fin n) (hp : p.1 ≠ p.2) (k : Fin n) :
    ((pairAccelStep e f p k).ax, (pairAccelStep e f p k).ay)
      = ((f k).ax, (f k).ay) + pairDelta e f p k := by
  simp only [pairAccelStep, pairDelta]
  rcases eq_or_ne k p.2 with rfl | hk2
  · rw [Function.update_same, if_neg (Ne.symm hp), if_pos rfl, zero_add]
    simp only [bodyAccelTerm]
    rw [Prod.mk_add_mk]
    rw [show ((f p.1).x - (f p.2).x) * ((f p.1).x - (f p.2).x)
        + ((f p.1).y - (f p.2).y) * ((f p.1).y - (f p.2).y) + SOFTENING_SQ
        = ((f p.2).x - (f p.1).x) * ((f p.2).x - (f p.1).x)
          + ((f p.2).y - (f p.1).y) * ((f p.2).y - (f p.1).y)
          + SOFTENING_SQ from by ring]
    rw [Prod.mk.injEq]
    constructor
    · ring
    · ring
  · rw [Function.update_noteq hk2]
    rcases eq_or_ne k p.1 with rfl | hk1
    · rw [Function.update_same, if_pos rfl, if_neg hk2, add_zero]
      simp only [bodyAccelTerm]
      rw [Prod.mk_add_mk]
    · rw [Function.update_noteq hk1, if_neg hk1, if_neg hk2, add_zero,
        add_zero]

theorem foldPair_accel (e : MathEnv) :
    ∀ (ps : List (Fin n × Fin n)), (∀ p ∈ ps, p.1 ≠ p.2) →
    ∀ (f : Fin n → CelestialBody) (k : Fin n),
    (((ps.foldl (pairAccelStep e) f) k).ax,
     ((ps.foldl (pairAccelStep e) f) k).ay)
      = ((f k).ax, (f k).ay) + (ps.map fun p => pairDelta e f p k).sum := by
  intro ps
  induction ps with
  | nil =>
    intro _ f k
    simp
  | cons p ps ih =>
    intro hps f k
    rw [List.foldl_cons,
      ih (fun q hq => hps q (List.mem_cons_of_mem p hq))
        (pairAccelStep e f p) k]
    have hmap : (ps.map fun q => pairDelta e (pairAccelStep e f p) q k)
        = ps.map fun q => pairDelta e f q k :=
      List.map_congr_left fun q _ => pairDelta_congr e (fun k' => by
        obtain ⟨⟨hx, hy, _, _, hm, _, _, _⟩, _⟩ := pairAccelStep_kin e f p k'
        exact ⟨hx, hy, hm⟩) q k
    rw [hmap, pairAccelStep_accel e f p (hps p (List.mem_cons_self p ps)) k,
      List.map_cons, List.sum_cons, add_assoc]

theorem sum_map_flatMap {α β M : Type} [AddCommMonoid M] (l : List α)
    (F : α → List β) (g : β → M) :
    ((l.flatMap F).map g).sum = (l.map fun a => ((F a).map g).sum).sum := by
  induction l with
  | nil => rfl
  | cons a l ih =>
    simp only [List.flatMap_cons, List.map_append, List.sum_append, ih,
      List.map_cons, List.sum_cons]

theorem sum_map_filter {α M : Type} [AddCommMonoid M] (l : List α)
    (q : α → Bool) (g : α → M) :
    ((l.filter q).map g).sum = (l.map fun a => if q a then g a else 0).sum := by
  induction l with
  | nil => rfl
  | cons a l ih =>
    cases hq : q a <;>
      simp [List.filter_cons, hq, ih]

theorem sum_pairDelta (e : MathEnv) (b : Fin n → CelestialBody)
    (k : Fin n) :
    ((accelPairs n).map fun p => pairDelta e b p k).sum
      = ∑ l ∈ Finset.univ.erase k, bodyAccelTerm e b k l := by
  rw [show accelPairs n
      = (List.finRange n).flatMap (fun i =>
          ((List.finRange n).filter fun j => i < j).map fun j => (i, j))
    from rfl]
  rw [sum_map_flatMap]
  have hinner : ∀ i : Fin n,
      ((((List.finRange n).filter fun j => i < j).map fun j => (i, j)).map
        (fun p => pairDelta e b p k)).sum
      = ((List.finRange n).map fun j =>
          if i < j then pairDelta e b (i, j) k else 0).sum := by
    intro i
    rw [List.map_map, sum_map_filter]
    refine congrArg List.sum (List.map_congr_left fun j _ => ?_)
    by_cases h : i < j
    · simp [Function.comp, h]
    · simp [Function.comp, h]
  rw [List.map_congr_left fun i _ => hinner i]
  rw [show ((List.finRange n).map fun i =>
      ((List.finRange n).map fun j =>
        if i < j then pairDelta e b (i, j) k else 0).sum).sum
    = ∑ i : Fin n, ∑ j : Fin n,
        (if i < j then pairDelta e b (i, j) k else 0) from by
      rw [Fin.sum_univ_def]
      exact congrArg List.sum
        (List.map_congr_left fun i _ => (Fin.sum_univ_def _).symm).symm]
  have hsplit : ∀ i j : Fin n,
      (if i < j then pairDelta e b (i, j) k else 0)
      = (if i < j then (if k = i then bodyAccelTerm e b k j else 0) else 0)
        + (if i < j then (if k = j then bodyAccelTerm e b k i else 0)
            else 0) := by
    intro i j
    by_cases h : i < j
    · simp only [if_pos h]
      rfl
    · simp [h]
  rw [Finset.sum_congr rfl fun i _ => Finset.sum_congr rfl fun j _ =>
    hsplit i j]
  rw [Finset.sum_congr rfl fun i _ => Finset.sum_add_distrib,
    Finset.sum_add_distrib]
  have hX : (∑ i : Fin n, ∑ j : Fin n,
      (if i < j then (if k = i then bodyAccelTerm e b k j else 0) else 0))
      = ∑ j : Fin n, (if k < j then bodyAccelTerm e b k j else 0) := by
    have h1 : ∀ i : Fin n, (∑ j : Fin n,
        (if i < j then (if k = i then bodyAccelTerm e b k j else 0)
          else 0))
        = if k = i then (∑ j : Fin n,
            (if i < j then bodyAccelTerm e b k j else 0)) else 0 := by
      intro i
      by_cases h : k = i
      · rw [if_pos h]
        refine Finset.sum_congr rfl fun j _ => ?_
        by_cases h2 : i < j <;> simp [h, h2]
      · rw [if_neg h]
        refine Finset.sum_eq_zero fun j _ => ?_
        by_cases h2 : i < j <;> simp [h, h2]
    rw [Finset.sum_congr rfl fun i _ => h1 i]
    rw [Fintype.sum_ite_eq k (fun i => ∑ j : Fin n,
      (if i < j then bodyAccelTerm e b k j else 0))]
  have hY : (∑ i : Fin n, ∑ j : Fin n,
      (if i < j then (if k = j then bodyAccelTerm e b k i else 0) else 0))
      = ∑ i : Fin n, (if i < k then bodyAccelTerm e b k i else 0) := by
    refine Finset.sum_congr rfl fun i _ => ?_
    have h1 : ∀ j : Fin n,
        (if i < j then (if k = j then bodyAccelTerm e b k i else 0)
          else 0)
        = if k = j then (if i < k then bodyAccelTerm e b k i else 0)
          else 0 := by
      intro j
      by_cases h2 : k = j
      · rw [← h2]
        by_cases h3 : i < k <;> simp [h3]
      · by_cases h3 : i < j <;> simp [h2, h3]
    rw [Finset.sum_congr rfl fun j _ => h1 j]
    rw [Fintype.sum_ite_eq k
      (fun j => if i < k then bodyAccelTerm e b k i else 0)]
  rw [hX, hY, ← Finset.sum_add_distrib]
  rw [Finset.sum_congr rfl (fun l _ => show
      (if k < l then bodyAccelTerm e b k l else 0)
        + (if l < k then bodyAccelTerm e b k l else 0)
      = if l ∈ Finset.univ.erase k then bodyAccelTerm e b k l else 0 from by
    rcases lt_trichotomy k l with h | h | h
    · simp [h, asymm h, Finset.mem_erase, ne_of_gt h]
    · rw [← h]
      simp [lt_irrefl, Finset.mem_erase]
    · simp [h, asymm h, Finset.mem_erase, ne_of_lt h])]
  exact Fintype.sum_ite_mem (Finset.univ.erase k)
    (fun l => bodyAccelTerm e b k l)

theorem starKick_reset_accel (e : MathEnv) (s : Star)
    (b : Fin n → CelestialBody) (k : Fin n) :
    ((starKick e s { b k with ax := 0, ay := 0 }).ax,
     (starKick e s { b k with ax := 0, ay := 0 }).ay)
      = starAccelTerm e s (b k) := by
  have h1 : (starKick e s { b k with ax := 0, ay := 0 }).ax
      = (starAccelTerm e s (b k)).1 := by
    show (0 : ℚ) + (starAccelTerm e s (b k)).1 = (starAccelTerm e s (b k)).1
    exact zero_add _
  have h2 : (starKick e s { b k with ax := 0, ay := 0 }).ay
      = (starAccelTerm e s (b k)).2 := by
    show (0 : ℚ) + (starAccelTerm e s (b k)).2 = (starAccelTerm e s (b k)).2
    exact zero_add _
  rw [Prod.ext_iff]
  exact ⟨h1, h2⟩

/-- C6: after a force-accumulation pass, every body's acceleration equals
the star term (when an attractor is present) plus the sum, over every
other body, of that body's mass times the softened inverse-square kernel
directed toward it — the softening `ε²` being added to the squared
distance before the square root; the pass reads only positions and masses
and leaves position, velocity, mass, radius, trail and flags of every body
unchanged (and the star, which has no acceleration field, receives no
reciprocal term); the mass-scaled pairwise contributions are equal and
opposite. -/
theorem C6_accelerations (e : MathEnv) (star? : Option Star)
    (b : Fin n → CelestialBody) (k : Fin n) :
    sameKinTrail (computeAccelerations e star? b k) (b k) ∧
    ((computeAccelerations e star? b k).ax,
     (computeAccelerations e star? b k).ay)
      = (match star? with
         | none => ((0 : ℚ), (0 : ℚ))
         | some s => starAccelTerm e s (b k))
        + ∑ l ∈ Finset.univ.erase k, bodyAccelTerm e b k l ∧
    (∀ l : Fin n,
      (b k).mass * (bodyAccelTerm e b k l).1
          = -((b l).mass * (bodyAccelTerm e b l k).1) ∧
      (b k).mass * (bodyAccelTerm e b k l).2
          = -((b l).mass * (bodyAccelTerm e b l k).2)) := by
  have hne : ∀ p ∈ accelPairs n, p.1 ≠ p.2 :=
    fun p hp => ne_of_lt (accelPairs_lt p hp)
  refine ⟨computeAccelerations_kin e star? b k, ?_, ?_⟩
  · cases star? with
    | none =>
      refine Eq.trans (foldPair_accel e (accelPairs n) hne
        (fun k' => { b k' with ax := 0, ay := 0 }) k) ?_
      rw [List.map_congr_left fun p _ =>
        @pairDelta_congr n e (fun k' => { b k' with ax := 0, ay := 0 }) b
          (fun k' => ⟨rfl, rfl, rfl⟩) p k]
      rw [sum_pairDelta]
    | some s =>
      refine Eq.trans (foldPair_accel e (accelPairs n) hne
        (fun k' => starKick e s { b k' with ax := 0, ay := 0 }) k) ?_
      rw [List.map_congr_left fun p _ =>
        @pairDelta_congr n e
          (fun k' => starKick e s { b k' with ax := 0, ay := 0 }) b
          (fun k' => ⟨rfl, rfl, rfl⟩) p k]
      rw [sum_pairDelta, starKick_reset_accel]
  · intro l
    constructor <;>
    · simp only [bodyAccelTerm]
      rw [show ((b k).x - (b l).x) * ((b k).x - (b l).x)
          + ((b k).y - (b l).y) * ((b k).y - (b l).y) + SOFTENING_SQ
          = ((b l).x - (b k).x) * ((b l).x - (b k).x)
            + ((b l).y - (b k).y) * ((b l).y - (b k).y) + SOFTENING_SQ
        from by ring]
      ring

end Orbital
